import Mathlib

/-!
Verification development for a photographer booking and invoicing
application.  The storage module (`storage.ts`), the reminder module
(`notifications.ts`) and the upcoming-shoots screen handler
(`upcoming.tsx`) are shallowly embedded below: JavaScript numbers are
modelled as `Rat` (for money) and `Int` (for epoch milliseconds and day
counts), JavaScript strings as Lean `String`, the key-value store
(AsyncStorage) as explicit association lists threaded through every
operation, and fallible parsing as `Option`.
-/

/-- Model of the JavaScript whitespace class used by `trim` and by the
leading-whitespace skip of `parseFloat` and `parseInt` (space, tab, LF,
CR, VT, FF). -/
def isJsWhitespaceB (c : Char) : Bool :=
  c.toNat = 32 || c.toNat = 9 || c.toNat = 10 || c.toNat = 13 || c.toNat = 11 || c.toNat = 12

/-- Decimal-digit test on characters, by code point. -/
def isDigitB (c : Char) : Bool :=
  48 ≤ c.toNat && c.toNat ≤ 57

/-- Numeric value of a decimal digit character. -/
def digitVal (c : Char) : Nat :=
  c.toNat - 48

/-- Value of a string of decimal digits, most significant first. -/
def digitsToNat (ds : List Char) : Nat :=
  ds.foldl (fun a c => a * 10 + digitVal c) 0

/-- Model of JavaScript `parseFloat` restricted to the decimal literal
forms that occur in this program: optional leading whitespace, optional
sign, integer digits and an optional fractional part.  `none` stands for
`NaN` (no digits could be consumed); exponent and `Infinity` forms are
outside the model. -/
def jsParseFloat (s : String) : Option Rat :=
  let cs := s.data.dropWhile isJsWhitespaceB
  let neg := cs.head? = some '-'
  let cs2 := if cs.head? = some '-' || cs.head? = some '+' then cs.tail else cs
  let ip := cs2.takeWhile isDigitB
  let rest := cs2.dropWhile isDigitB
  let fp := if rest.head? = some '.' then rest.tail.takeWhile isDigitB else []
  if ip.isEmpty && fp.isEmpty then none
  else
    let mag : Rat := (digitsToNat ip : Rat) + (digitsToNat fp : Rat) / ((10 : Rat) ^ fp.length)
    some (if neg then -mag else mag)

/-- Model of the JavaScript idiom `parseFloat(s) || 0`: a parse failure
(`NaN`, falsy) yields `0`; a parsed `0` is also falsy and yields the same
`0`, so mapping `none` to `0` is exact. -/
def parseFloatOr0 (s : String) : Rat :=
  match jsParseFloat s with
  | none => 0
  | some r => r

/-- Line item of an invoice (`InvoiceItem` in `storage.ts`); the quantity
is free display text, not a number. -/
structure InvoiceItem where
  id : String
  description : String
  quantity : String
  deriving DecidableEq

/-- An invoice record (`Invoice` in `storage.ts`). -/
structure Invoice where
  id : String
  invoiceNumber : String
  invoiceDate : String
  customerNames : String
  eventDate : String
  eventLocation : String
  phoneNumber : String
  items : List InvoiceItem
  fullPrice : String
  advancePayment : String
  createdAt : String
  updatedAt : String
  deriving DecidableEq

/-- A logged shoot record (`ShootEntry` in `storage.ts`); the shoot type
is one of seven string constants and is modelled as a string, as it is at
runtime. -/
structure ShootEntry where
  id : String
  clientName : String
  shootDate : String
  shootTime : String
  shootLocation : String
  salonName : String
  modelName : String
  shootType : String
  price : String
  advancePaid : String
  phoneNumber : String
  notes : String
  createdAt : String
  updatedAt : String
  deriving DecidableEq

/-- A future booking (`UpcomingShoot` in `storage.ts`). -/
structure UpcomingShoot where
  id : String
  clientName : String
  shootDate : String
  shootTime : String
  shootLocation : String
  salonName : String
  modelName : String
  shootType : String
  contactNumber : String
  packagePrice : String
  advancePaid : String
  notes : String
  completed : Bool
  createdAt : String
  updatedAt : String
  deriving DecidableEq

/-- Embeds `getTotal` of `storage.ts`: `parseFloat(invoice.fullPrice) || 0`. -/
def getTotal (invoice : Invoice) : Rat :=
  parseFloatOr0 invoice.fullPrice

/-- Embeds `calculateBalance` of `storage.ts`:
`total - (parseFloat(advance) || 0)`. -/
def calculateBalance (total : Rat) (advance : String) : Rat :=
  total - parseFloatOr0 advance

/-- Result record of `getMonthlyStats`. -/
structure MonthlyStats where
  totalShoots : Nat
  totalIncome : Rat
  avgPerShoot : Rat
  deriving DecidableEq

/-- Embeds `getMonthlyStats` of `storage.ts`: the `reduce` over prices is
a left fold with initial accumulator `0`. -/
def getMonthlyStats (shoots : List ShootEntry) : MonthlyStats :=
  let totalShoots := shoots.length
  let totalIncome := shoots.foldl (fun sum s => sum + parseFloatOr0 s.price) 0
  let avgPerShoot := if totalShoots > 0 then totalIncome / (totalShoots : Rat) else 0
  { totalShoots := totalShoots, totalIncome := totalIncome, avgPerShoot := avgPerShoot }

/-- Fuel-driven decimal rendering; the fuel only bounds the recursion
depth and any fuel above the rendered number is enough. -/
def natToDecimalAux : Nat → Nat → List Char
  | 0, _ => []
  | fuel + 1, n =>
    if n < 10 then [Nat.digitChar n]
    else natToDecimalAux fuel (n / 10) ++ [Nat.digitChar (n % 10)]

/-- Decimal rendering of a natural number, most significant digit first
(model of JavaScript `Number.prototype.toString` on non-negative
integers). -/
def natToDecimal (n : Nat) : List Char :=
  natToDecimalAux (n + 1) n

/-- Model of JavaScript `Number.prototype.toString` on integers. -/
def jsIntToString (m : Int) : String :=
  if m < 0 then String.mk ('-' :: natToDecimal m.natAbs)
  else String.mk (natToDecimal m.natAbs)

/-- Model of `Math.ceil(a / b)` for integers with `b > 0`: the ceiling of
the exact quotient, via negated floor division. -/
def ceilDivJS (a b : Int) : Int :=
  -((-a).fdiv b)

/-- Embeds `getDaysUntilLabel` of `storage.ts` as a function of the day
count `days = getDaysUntil(dateStr)`; `getDaysUntil` itself reads the
device clock, so the label mapping is stated over its integer result. -/
def getDaysUntilLabel (days : Int) : String :=
  if days < 0 then "Overdue"
  else if days = 0 then "Today"
  else if days = 1 then "Tomorrow"
  else if days ≤ 7 then jsIntToString days ++ " days"
  else if days ≤ 30 then jsIntToString (ceilDivJS days 7) ++ " weeks"
  else jsIntToString (ceilDivJS days 30) ++ " months"

/-- Fold-to-sum bridge for `getMonthlyStats`: the JavaScript `reduce`
over prices computes the sum of the parsed prices. -/
theorem foldl_price_sum (l : List ShootEntry) (a : Rat) :
    l.foldl (fun sum s => sum + parseFloatOr0 s.price) a
      = a + (l.map (fun s => parseFloatOr0 s.price)).sum := by
  induction l generalizing a with
  | nil => simp
  | cons x xs ih => simp [List.foldl_cons, ih, add_assoc]

/-- C1: for every invoice the computed balance equals the parsed full
price minus the parsed advance payment, where parsing a string yields 0
on parse failure (non-numeric input is treated as zero, not an error). -/
theorem balance_eq_fullPrice_sub_advance (inv : Invoice) :
    calculateBalance (getTotal inv) inv.advancePayment
      = parseFloatOr0 inv.fullPrice - parseFloatOr0 inv.advancePayment := by
  rfl

/-- C7: `getMonthlyStats` returns the count of shoots, the sum of their
parsed prices (non-numeric price contributes 0), and an average equal to
sum divided by count, with average 0 for the empty list. -/
theorem getMonthlyStats_spec (shoots : List ShootEntry) :
    (getMonthlyStats shoots).totalShoots = shoots.length
      ∧ (getMonthlyStats shoots).totalIncome
          = (shoots.map (fun s => parseFloatOr0 s.price)).sum
      ∧ (shoots ≠ [] →
          (getMonthlyStats shoots).avgPerShoot
            = (getMonthlyStats shoots).totalIncome / (shoots.length : Rat))
      ∧ (shoots = [] → (getMonthlyStats shoots).avgPerShoot = 0) := by
  refine ⟨rfl, ?_, ?_, ?_⟩
  · simpa using foldl_price_sum shoots 0
  · intro h
    have hlen : 0 < shoots.length := List.length_pos.mpr h
    simp [getMonthlyStats, hlen]
  · intro h
    simp [getMonthlyStats, h]

/-- Sample logged shoot used by concrete witnesses. -/
def sampleShoot : ShootEntry :=
  { id := "s1", clientName := "A", shootDate := "d",
    shootTime := "", shootLocation := "L", salonName := "", modelName := "",
    shootType := "Wedding", price := "150.50", advancePaid := "",
    phoneNumber := "", notes := "", createdAt := "", updatedAt := "" }

/-- Witness for C7 at a concrete one-element list and at the empty
list. -/
theorem getMonthlyStats_spec_witness :
    (getMonthlyStats [sampleShoot]).avgPerShoot
      = (getMonthlyStats [sampleShoot]).totalIncome
          / (([sampleShoot] : List ShootEntry).length : Rat)
      ∧ (getMonthlyStats []).avgPerShoot = 0 := by
  constructor
  · exact (getMonthlyStats_spec [sampleShoot]).2.2.1 (by decide)
  · exact (getMonthlyStats_spec []).2.2.2 rfl

/-- C6: the label mapping of `getDaysUntilLabel` on the integer day
difference `d`: negative gives "Overdue", 0 "Today", 1 "Tomorrow",
2..7 the plain day count, 8..30 the week count rounded up by
`ceil(d/7)`, and 31 and beyond the month count rounded up by
`ceil(d/30)`; in particular 7 maps to "7 days", 8 to "2 weeks" and 30
to "5 weeks". -/
theorem getDaysUntilLabel_spec :
    (∀ d : Int, d < 0 → getDaysUntilLabel d = "Overdue")
      ∧ getDaysUntilLabel 0 = "Today"
      ∧ getDaysUntilLabel 1 = "Tomorrow"
      ∧ (∀ d : Int, 2 ≤ d → d ≤ 7 →
          getDaysUntilLabel d = jsIntToString d ++ " days")
      ∧ (∀ d : Int, 8 ≤ d → d ≤ 30 →
          getDaysUntilLabel d = jsIntToString (ceilDivJS d 7) ++ " weeks")
      ∧ (∀ d : Int, 31 ≤ d →
          getDaysUntilLabel d = jsIntToString (ceilDivJS d 30) ++ " months")
      ∧ getDaysUntilLabel 7 = "7 days"
      ∧ getDaysUntilLabel 8 = "2 weeks"
      ∧ getDaysUntilLabel 30 = "5 weeks" := by
  refine ⟨?_, by decide, by decide, ?_, ?_, ?_, by decide, by decide, by decide⟩
  · intro d hd
    simp [getDaysUntilLabel, hd]
  · intro d h2 h7
    have h0 : ¬ d < 0 := by omega
    have h1 : ¬ d = 0 := by omega
    have h2' : ¬ d = 1 := by omega
    simp [getDaysUntilLabel, h0, h1, h2', h7]
  · intro d h8 h30
    have h0 : ¬ d < 0 := by omega
    have h1 : ¬ d = 0 := by omega
    have h2' : ¬ d = 1 := by omega
    have h7 : ¬ d ≤ 7 := by omega
    simp [getDaysUntilLabel, h0, h1, h2', h7, h30]
  · intro d h31
    have h0 : ¬ d < 0 := by omega
    have h1 : ¬ d = 0 := by omega
    have h2' : ¬ d = 1 := by omega
    have h7 : ¬ d ≤ 7 := by omega
    have h30 : ¬ d ≤ 30 := by omega
    simp [getDaysUntilLabel, h0, h1, h2', h7, h30]

/-- Witness for C6 at concrete day counts discharging each hypothesis. -/
theorem getDaysUntilLabel_spec_witness :
    getDaysUntilLabel (-3) = "Overdue"
      ∧ getDaysUntilLabel 5 = jsIntToString 5 ++ " days"
      ∧ getDaysUntilLabel 9 = jsIntToString (ceilDivJS 9 7) ++ " weeks"
      ∧ getDaysUntilLabel 45 = jsIntToString (ceilDivJS 45 30) ++ " months" :=
  ⟨getDaysUntilLabel_spec.1 (-3) (by decide),
   getDaysUntilLabel_spec.2.2.2.1 5 (by decide) (by decide),
   getDaysUntilLabel_spec.2.2.2.2.1 9 (by decide) (by decide),
   getDaysUntilLabel_spec.2.2.2.2.2.1 45 (by decide)⟩

/-- Model of JavaScript `toLowerCase` on a single character, restricted
to the ASCII letters that appear in this program's data. -/
def jsCharToLower (c : Char) : Char :=
  if 65 ≤ c.toNat ∧ c.toNat ≤ 90 then Char.ofNat (c.toNat + 32) else c

/-- Model of JavaScript `String.prototype.toLowerCase`. -/
def jsToLower (s : String) : String :=
  String.mk (s.data.map jsCharToLower)

/-- Both-ends whitespace stripping on a character list. -/
def trimList (cs : List Char) : List Char :=
  ((cs.dropWhile isJsWhitespaceB).reverse.dropWhile isJsWhitespaceB).reverse

/-- Model of JavaScript `String.prototype.trim`. -/
def jsTrim (s : String) : String :=
  String.mk (trimList s.data)

/-- Whether the second list is an initial segment of the first. -/
def startsWithList (hay needle : List Char) : Bool :=
  match needle, hay with
  | [], _ => true
  | _ :: _, [] => false
  | a :: as, b :: bs => a == b && startsWithList bs as

/-- Whether the needle occurs contiguously inside the haystack. -/
def hasSub (hay needle : List Char) : Bool :=
  match hay with
  | [] => needle.isEmpty
  | _ :: t => startsWithList hay needle || hasSub t needle

/-- Model of JavaScript `String.prototype.includes`. -/
def jsIncludes (s sub : String) : Bool :=
  hasSub s.data sub.data

/-- Embeds `searchShoots` of `storage.ts`: the query is lowercased and
trimmed; an empty result returns the input, otherwise the shoots are
filtered by a case-insensitive substring match over client name,
location, salon name, model name, shoot type and notes. -/
def searchShoots (shoots : List ShootEntry) (query : String) : List ShootEntry :=
  let q := jsTrim (jsToLower query)
  if q = "" then shoots
  else shoots.filter (fun s =>
    jsIncludes (jsToLower s.clientName) q ||
    jsIncludes (jsToLower s.shootLocation) q ||
    jsIncludes (jsToLower s.salonName) q ||
    jsIncludes (jsToLower s.modelName) q ||
    jsIncludes (jsToLower s.shootType) q ||
    jsIncludes (jsToLower s.notes) q)

/-- Embeds `searchInvoices` of `storage.ts`: same shape as `searchShoots`
but over customer names, invoice number, event location and phone
number. -/
def searchInvoices (invoices : List Invoice) (query : String) : List Invoice :=
  let q := jsTrim (jsToLower query)
  if q = "" then invoices
  else invoices.filter (fun inv =>
    jsIncludes (jsToLower inv.customerNames) q ||
    jsIncludes (jsToLower inv.invoiceNumber) q ||
    jsIncludes (jsToLower inv.eventLocation) q ||
    jsIncludes (jsToLower inv.phoneNumber) q)

/-- Lowercasing leaves a whitespace character unchanged: no whitespace
code point lies in the uppercase ASCII range. -/
theorem jsCharToLower_of_whitespace (c : Char)
    (h : isJsWhitespaceB c = true) : jsCharToLower c = c := by
  have hc : ¬ (65 ≤ c.toNat ∧ c.toNat ≤ 90) := by
    simp [isJsWhitespaceB] at h
    omega
  simp [jsCharToLower, hc]

/-- Dropping by a predicate every element satisfies empties the list. -/
theorem dropWhile_of_all {p : Char → Bool} (l : List Char) :
    (∀ c ∈ l, p c = true) → l.dropWhile p = [] := by
  induction l with
  | nil => intro _; rfl
  | cons a t ih =>
    intro h
    have ha : p a = true := h a (by simp)
    rw [List.dropWhile_cons, if_pos ha]
    exact ih (fun c hc => h c (List.mem_cons_of_mem a hc))

/-- Trimming a string of pure whitespace yields the empty string. -/
theorem trimList_of_all_whitespace (cs : List Char)
    (h : ∀ c ∈ cs, isJsWhitespaceB c = true) : trimList cs = [] := by
  unfold trimList
  rw [dropWhile_of_all cs h]
  rfl

/-- C8: an empty or all-whitespace query leaves both search functions as
the identity: the same elements in the same order. -/
theorem search_whitespace_query_id
    (invoices : List Invoice) (shoots : List ShootEntry) (query : String)
    (h : ∀ c ∈ query.data, isJsWhitespaceB c = true) :
    searchInvoices invoices query = invoices ∧ searchShoots shoots query = shoots := by
  have hlow : ∀ c ∈ (jsToLower query).data, isJsWhitespaceB c = true := by
    intro c hc
    simp [jsToLower] at hc
    obtain ⟨a, ha, rfl⟩ := hc
    rw [jsCharToLower_of_whitespace a (h a ha)]
    exact h a ha
  have hq : jsTrim (jsToLower query) = "" := by
    unfold jsTrim
    rw [trimList_of_all_whitespace _ hlow]
  constructor
  · simp [searchInvoices, hq]
  · simp [searchShoots, hq]

/-- Witness for C8 on a one-space query with concrete record lists. -/
theorem search_whitespace_query_id_witness :
    searchInvoices [] " " = [] ∧ searchShoots [sampleShoot] " " = [sampleShoot] :=
  search_whitespace_query_id [] [sampleShoot] " " (by decide)

/-- A logged shoot whose only occurrence of the digits 0771 is in its
phone-number field. -/
def phoneOnlyShoot : ShootEntry :=
  { id := "s2", clientName := "Amal", shootDate := "2024-01-01",
    shootTime := "", shootLocation := "Kandy", salonName := "Salon",
    modelName := "Mode", shootType := "Wedding", price := "100",
    advancePaid := "", phoneNumber := "0771234567", notes := "note",
    createdAt := "", updatedAt := "" }

/-- C5 counterexample: the claim includes the phone field among the
searched fields, but `searchShoots` never inspects `phoneNumber`; a shoot
whose phone number contains the query is dropped from the result. -/
theorem searchShoots_phone_counterexample :
    jsIncludes (jsToLower phoneOnlyShoot.phoneNumber) (jsTrim (jsToLower "0771")) = true
      ∧ searchShoots [phoneOnlyShoot] "0771" = [] := by
  constructor
  · decide
  · decide

/-- C5 amended: for a query that is non-empty after lowercasing and
trimming, `searchShoots` returns exactly the shoots in which the query
occurs as a case-insensitive substring of the client name, location,
salon name, model name, shoot type or notes; the phone field is not
searched. -/
theorem searchShoots_membership (shoots : List ShootEntry) (query : String)
    (s : ShootEntry) (hq : jsTrim (jsToLower query) ≠ "") :
    s ∈ searchShoots shoots query
      ↔ s ∈ shoots ∧
        (jsIncludes (jsToLower s.clientName) (jsTrim (jsToLower query)) ||
         jsIncludes (jsToLower s.shootLocation) (jsTrim (jsToLower query)) ||
         jsIncludes (jsToLower s.salonName) (jsTrim (jsToLower query)) ||
         jsIncludes (jsToLower s.modelName) (jsTrim (jsToLower query)) ||
         jsIncludes (jsToLower s.shootType) (jsTrim (jsToLower query)) ||
         jsIncludes (jsToLower s.notes) (jsTrim (jsToLower query))) = true := by
  unfold searchShoots
  simp [hq, List.mem_filter]

/-- Witness for C5's amended statement: the sample shoot is found by a
query matching its location, case-insensitively. -/
theorem searchShoots_membership_witness :
    sampleShoot ∈ searchShoots [sampleShoot] "l"
      ↔ sampleShoot ∈ [sampleShoot] ∧
        (jsIncludes (jsToLower sampleShoot.clientName) (jsTrim (jsToLower "l")) ||
         jsIncludes (jsToLower sampleShoot.shootLocation) (jsTrim (jsToLower "l")) ||
         jsIncludes (jsToLower sampleShoot.salonName) (jsTrim (jsToLower "l")) ||
         jsIncludes (jsToLower sampleShoot.modelName) (jsTrim (jsToLower "l")) ||
         jsIncludes (jsToLower sampleShoot.shootType) (jsTrim (jsToLower "l")) ||
         jsIncludes (jsToLower sampleShoot.notes) (jsTrim (jsToLower "l"))) = true :=
  searchShoots_membership [sampleShoot] "l" sampleShoot (by decide)

/-- Lead-time options of the reminder settings (`'1h' | '3h' | '1d' |
'2d'` in `notifications.ts`). -/
inductive ReminderTiming
  | oneHour
  | threeHours
  | oneDay
  | twoDays
  deriving DecidableEq

/-- Reminder settings record (`ReminderSettings` in `notifications.ts`). -/
structure ReminderSettings where
  shootReminders : Bool
  invoiceReminders : Bool
  reminderTiming : ReminderTiming
  deriving DecidableEq

/-- Embeds `getTimingOffset` of `notifications.ts`, in milliseconds. -/
def getTimingOffset : ReminderTiming → Int
  | .oneHour => 1 * 60 * 60 * 1000
  | .threeHours => 3 * 60 * 60 * 1000
  | .oneDay => 24 * 60 * 60 * 1000
  | .twoDays => 2 * 24 * 60 * 60 * 1000

/-- Combined state of the reminder subsystem: the persisted
notification-handle entries of AsyncStorage (full key to handle), the
platform-scheduled notifications (handle and trigger time), and the
handles whose cancellation has been requested from the platform. -/
structure NotifState where
  handles : List (String × String)
  scheduled : List (String × Int)
  cancelled : List String
  deriving DecidableEq

/-- AsyncStorage `getItem` on an association list. -/
def kvGet (k : String) (l : List (String × String)) : Option String :=
  (l.find? (fun p => p.1 == k)).map (fun p => p.2)

/-- AsyncStorage `removeItem` on an association list. -/
def kvRemove (k : String) (l : List (String × String)) : List (String × String) :=
  l.filter (fun p => !(p.1 == k))

/-- AsyncStorage `setItem` on an association list: the key is rebound. -/
def kvSet (k v : String) (l : List (String × String)) : List (String × String) :=
  (k, v) :: kvRemove k l

/-- Embeds `cancelReminder` of `notifications.ts`: read the handle
persisted under `ns_notif_<key>`; if it is present (and truthy, so a
non-empty string), request platform cancellation and remove the entry;
otherwise do nothing.  The body is wrapped in a catch-all in the source,
and the model is a total function, so no call signals an error. -/
def cancelReminder (key : String) (st : NotifState) : NotifState :=
  match kvGet ("ns_notif_" ++ key) st.handles with
  | some existingId =>
    if existingId = "" then st
    else
      { st with
        cancelled := st.cancelled ++ [existingId],
        handles := kvRemove ("ns_notif_" ++ key) st.handles }
  | none => st

/-- Embeds `saveScheduledId` of `notifications.ts`. -/
def saveScheduledId (key notifId : String) (st : NotifState) : NotifState :=
  { st with handles := kvSet ("ns_notif_" ++ key) notifId st.handles }

/-- Embeds `scheduleShootReminder` of `notifications.ts`.  The target
datetime computed from `parseDate(shootDate)` and the optional
`parseTime(shootTime)` adjustment is environment-dependent (device local
time), so it enters the model as `targetMs` (epoch milliseconds, `none`
for a parse failure), `Date.now()` enters as `nowMs`, and the platform's
fresh notification handle as `freshId`.  Branch structure follows the
source: web, disabled setting, unparseable date and past trigger all
return `null` without touching the state. -/
def scheduleShootReminder (isWeb : Bool) (settings : ReminderSettings)
    (shootId : String) (targetMs : Option Int) (nowMs : Int)
    (freshId : String) (st : NotifState) : Option String × NotifState :=
  if isWeb then (none, st)
  else if !settings.shootReminders then (none, st)
  else
    match targetMs with
    | none => (none, st)
    | some target =>
      let trigger := target - getTimingOffset settings.reminderTiming
      if trigger ≤ nowMs then (none, st)
      else
        let st1 := cancelReminder ("shoot_" ++ shootId) st
        let st2 := { st1 with scheduled := st1.scheduled ++ [(freshId, trigger)] }
        (some freshId, saveScheduledId ("shoot_" ++ shootId) freshId st2)

/-- Embeds `scheduleInvoiceReminder` of `notifications.ts`; the event
date with its fixed 08:00 adjustment enters as `targetMs` exactly as for
shoots. -/
def scheduleInvoiceReminder (isWeb : Bool) (settings : ReminderSettings)
    (invoiceId : String) (targetMs : Option Int) (nowMs : Int)
    (freshId : String) (st : NotifState) : Option String × NotifState :=
  if isWeb then (none, st)
  else if !settings.invoiceReminders then (none, st)
  else
    match targetMs with
    | none => (none, st)
    | some target =>
      let trigger := target - getTimingOffset settings.reminderTiming
      if trigger ≤ nowMs then (none, st)
      else
        let st1 := cancelReminder ("invoice_" ++ invoiceId) st
        let st2 := { st1 with scheduled := st1.scheduled ++ [(freshId, trigger)] }
        (some freshId, saveScheduledId ("invoice_" ++ invoiceId) freshId st2)

/-- Lookup after removal of the same key finds nothing. -/
theorem kvGet_kvRemove (k : String) (l : List (String × String)) :
    kvGet k (kvRemove k l) = none := by
  simp [kvGet, kvRemove, List.find?_eq_none]

/-- C4: a shoot or invoice reminder request whose computed trigger time
(target datetime minus the configured lead-time offset) is at or before
the current time returns `null` and leaves the whole reminder state
untouched: no platform notification is registered, no handle is
persisted, and any previously persisted handle stays as it was. -/
theorem scheduleReminder_past_trigger_noop (settings : ReminderSettings)
    (shootId invoiceId : String) (target nowMs : Int) (freshId : String)
    (st : NotifState)
    (h : target - getTimingOffset settings.reminderTiming ≤ nowMs) :
    scheduleShootReminder false settings shootId (some target) nowMs freshId st
        = (none, st)
      ∧ scheduleInvoiceReminder false settings invoiceId (some target) nowMs freshId st
        = (none, st) := by
  constructor
  · cases hb : settings.shootReminders <;> simp [scheduleShootReminder, hb, h]
  · cases hb : settings.invoiceReminders <;> simp [scheduleInvoiceReminder, hb, h]

/-- Sample settings with both reminder kinds enabled and a one-day lead
time. -/
def sampleSettings : ReminderSettings :=
  { shootReminders := true, invoiceReminders := true, reminderTiming := .oneDay }

/-- Sample reminder state holding one persisted handle. -/
def sampleNotifState : NotifState :=
  { handles := [("ns_notif_shoot_77", "handle1")], scheduled := [], cancelled := [] }

/-- Witness for C4: a target exactly at the current time has a past
trigger and both scheduling calls are no-ops on a state that already
holds a handle. -/
theorem scheduleReminder_past_trigger_noop_witness :
    scheduleShootReminder false sampleSettings "77" (some 0) 0 "f1" sampleNotifState
        = (none, sampleNotifState)
      ∧ scheduleInvoiceReminder false sampleSettings "9" (some 0) 0 "f1" sampleNotifState
        = (none, sampleNotifState) :=
  scheduleReminder_past_trigger_noop sampleSettings "77" "9" 0 0 "f1" sampleNotifState (by decide)

/-- C9: `cancelReminder` is idempotent and a missing handle is never an
error: a second call in a row changes nothing, a call with no persisted
handle under the key is the identity, and a call with a (non-empty)
persisted handle removes it from storage and requests platform
cancellation. -/
theorem cancelReminder_spec (key : String) (st : NotifState) :
    cancelReminder key (cancelReminder key st) = cancelReminder key st
      ∧ (kvGet ("ns_notif_" ++ key) st.handles = none → cancelReminder key st = st)
      ∧ (∀ existingId, kvGet ("ns_notif_" ++ key) st.handles = some existingId →
          existingId ≠ "" →
          (cancelReminder key st).handles = kvRemove ("ns_notif_" ++ key) st.handles
            ∧ kvGet ("ns_notif_" ++ key) (cancelReminder key st).handles = none
            ∧ (cancelReminder key st).cancelled = st.cancelled ++ [existingId]) := by
  refine ⟨?_, ?_, ?_⟩
  · cases hg : kvGet ("ns_notif_" ++ key) st.handles with
    | none =>
      have h1 : cancelReminder key st = st := by simp [cancelReminder, hg]
      rw [h1, h1]
    | some existingId =>
      by_cases he : existingId = ""
      · have h1 : cancelReminder key st = st := by simp [cancelReminder, hg, he]
        rw [h1, h1]
      · have h1 : (cancelReminder key st).handles
            = kvRemove ("ns_notif_" ++ key) st.handles := by
          simp [cancelReminder, hg, he]
        have h2 : kvGet ("ns_notif_" ++ key) (cancelReminder key st).handles = none := by
          rw [h1]
          exact kvGet_kvRemove _ _
        rw [cancelReminder.eq_def, h2]
  · intro hg
    simp [cancelReminder, hg]
  · intro existingId hg he
    simp [cancelReminder, hg, he, kvGet_kvRemove]

/-- Witness for C9 on the sample state: the parts with hypotheses are
exercised at a key with a persisted handle and at a key without one. -/
theorem cancelReminder_spec_witness :
    cancelReminder "nothing_here" sampleNotifState = sampleNotifState
      ∧ ((cancelReminder "shoot_77" sampleNotifState).handles
            = kvRemove "ns_notif_shoot_77" sampleNotifState.handles
          ∧ kvGet "ns_notif_shoot_77" (cancelReminder "shoot_77" sampleNotifState).handles = none
          ∧ (cancelReminder "shoot_77" sampleNotifState).cancelled
            = sampleNotifState.cancelled ++ ["handle1"]) :=
  ⟨(cancelReminder_spec "nothing_here" sampleNotifState).2.1 (by decide),
   (cancelReminder_spec "shoot_77" sampleNotifState).2.2 "handle1" (by decide) (by decide)⟩

/-- Model of the JavaScript idiom `a || b` on an optional string field of
a parsed JSON record: `undefined` (here `none`) and the empty string are
falsy and fall through to the default. -/
def jsOrOpt (a : Option String) (b : String) : String :=
  match a with
  | none => b
  | some s => if s = "" then b else s

/-- Model of `a || b` on two plain strings. -/
def jsOrStr (a b : String) : String :=
  if a = "" then b else a

/-- A shoot record as read back from the JSON shoots collection, before
normalization in `getAllShoots`; the five fields that older records may
lack are optional. -/
structure StoredShoot where
  id : String
  clientName : Option String
  shootDate : String
  shootTime : Option String
  shootLocation : String
  salonName : Option String
  modelName : Option String
  shootType : String
  price : String
  advancePaid : Option String
  phoneNumber : String
  notes : String
  createdAt : String
  updatedAt : String
  deriving DecidableEq

/-- Embeds the per-record normalization inside `getAllShoots` of
`storage.ts`: the spread of the raw record with the five backfilled
fields. -/
def normalizeShoot (s : StoredShoot) : ShootEntry :=
  { id := s.id,
    clientName := jsOrOpt s.clientName (jsOrOpt s.modelName ""),
    shootDate := s.shootDate,
    shootTime := jsOrOpt s.shootTime "",
    shootLocation := s.shootLocation,
    salonName := jsOrOpt s.salonName "",
    modelName := jsOrOpt s.modelName "",
    shootType := s.shootType,
    price := s.price,
    advancePaid := jsOrOpt s.advancePaid "",
    phoneNumber := s.phoneNumber,
    notes := s.notes,
    createdAt := s.createdAt,
    updatedAt := s.updatedAt }

/-- Embeds `getAllShoots` of `storage.ts`: normalize every stored record
and sort by shoot date descending.  The `Date` valuation of a date string
is environment-dependent and enters as `dateVal`; the JavaScript
comparator sort is modelled by a comparison sort over the same
relation. -/
def getAllShoots (dateVal : String → Int) (raw : List StoredShoot) : List ShootEntry :=
  List.insertionSort
    (fun a b => dateVal b.shootDate ≤ dateVal a.shootDate)
    (raw.map normalizeShoot)

/-- C10: every entry returned by `getAllShoots` is the normalization of a
stored record, with the five optional fields backfilled: a missing client
name falls back to the model name and then to the empty string, and
missing shoot time, salon name, model name and advance are replaced by
the empty string, so no returned record carries an absent field. -/
theorem getAllShoots_backfill (dateVal : String → Int) (raw : List StoredShoot)
    (e : ShootEntry) (he : e ∈ getAllShoots dateVal raw) :
    ∃ s, s ∈ raw ∧ e = normalizeShoot s
      ∧ e.clientName = jsOrOpt s.clientName (jsOrOpt s.modelName "")
      ∧ e.shootTime = jsOrOpt s.shootTime ""
      ∧ e.salonName = jsOrOpt s.salonName ""
      ∧ e.modelName = jsOrOpt s.modelName ""
      ∧ e.advancePaid = jsOrOpt s.advancePaid ""
      ∧ (s.clientName = none → e.clientName = jsOrOpt s.modelName "") := by
  have hmem : e ∈ raw.map normalizeShoot := by
    unfold getAllShoots at he
    exact (List.perm_insertionSort _ _).mem_iff.mp he
  obtain ⟨s, hs, rfl⟩ := List.mem_map.mp hmem
  refine ⟨s, hs, rfl, rfl, rfl, rfl, rfl, rfl, ?_⟩
  intro h
  simp [normalizeShoot, h, jsOrOpt]

/-- A stored record missing its client name, time, salon and advance
fields. -/
def storedShootMissing : StoredShoot :=
  { id := "r1", clientName := none, shootDate := "2024-02-02",
    shootTime := none, shootLocation := "Loc", salonName := none,
    modelName := some "Mia", shootType := "Bridal", price := "10",
    advancePaid := none, phoneNumber := "", notes := "",
    createdAt := "", updatedAt := "" }

/-- Constant date valuation used by concrete witnesses. -/
def dateValZero : String → Int :=
  fun _ => 0

/-- Witness for C10 on a one-record collection whose stored record lacks
the optional fields. -/
theorem getAllShoots_backfill_witness :
    ∃ s, s ∈ [storedShootMissing] ∧ normalizeShoot storedShootMissing = normalizeShoot s
      ∧ (normalizeShoot storedShootMissing).clientName = jsOrOpt s.clientName (jsOrOpt s.modelName "")
      ∧ (normalizeShoot storedShootMissing).shootTime = jsOrOpt s.shootTime ""
      ∧ (normalizeShoot storedShootMissing).salonName = jsOrOpt s.salonName ""
      ∧ (normalizeShoot storedShootMissing).modelName = jsOrOpt s.modelName ""
      ∧ (normalizeShoot storedShootMissing).advancePaid = jsOrOpt s.advancePaid ""
      ∧ (s.clientName = none → (normalizeShoot storedShootMissing).clientName = jsOrOpt s.modelName "") :=
  getAllShoots_backfill dateValZero [storedShootMissing]
    (normalizeShoot storedShootMissing) (by decide)

/-- Combined application state touched by the upcoming-shoots completion
handler: the upcoming-shoots collection, the logged-shoots collection and
the reminder subsystem. -/
structure AppState where
  upcoming : List UpcomingShoot
  shoots : List ShootEntry
  notif : NotifState
  deriving DecidableEq

/-- Embeds `updateUpcomingShoot` of `storage.ts` specialized to the
`completed` partial update used by the handler: find the record by id,
replace the flag and the update timestamp; an unknown id writes
nothing. -/
def updateUpcomingShoot (id : String) (completed : Bool) (now : String)
    (l : List UpcomingShoot) : List UpcomingShoot :=
  match l.findIdx? (fun s => s.id == id) with
  | none => l
  | some i =>
    match l[i]? with
    | none => l
    | some s => l.set i { s with completed := completed, updatedAt := now }

/-- Embeds `getUpcomingShootsFromToday` of `storage.ts`: the local
midnight value of a date string is environment-dependent and enters as
`dayVal`, today's local midnight as `today`; the filter keeps
non-completed shoots dated today or later. -/
def getUpcomingShootsFromToday (dayVal : String → Int) (today : Int)
    (shoots : List UpcomingShoot) : List UpcomingShoot :=
  shoots.filter (fun s => today ≤ dayVal s.shootDate && !s.completed)

/-- The `ShootEntry` materialized by `handleToggleComplete` in
`upcoming.tsx` when a booking is marked completed, with the id and
timestamps assigned by `saveShoot`. -/
def completedShootEntry (shoot : UpcomingShoot) (newId now : String) : ShootEntry :=
  { id := newId,
    clientName := shoot.clientName,
    shootDate := shoot.shootDate,
    shootTime := jsOrStr shoot.shootTime "",
    shootLocation := shoot.shootLocation,
    salonName := jsOrStr shoot.salonName "",
    modelName := jsOrStr shoot.modelName "",
    shootType := shoot.shootType,
    price := jsOrStr shoot.packagePrice "0",
    advancePaid := jsOrStr shoot.advancePaid "",
    phoneNumber := jsOrStr shoot.contactNumber "",
    notes := jsOrStr shoot.notes "",
    createdAt := now, updatedAt := now }

/-- Embeds `handleToggleComplete` of `upcoming.tsx`: toggle the flag in
the upcoming collection; when marking complete, cancel the reminder under
`shoot_<id>` and append the materialized entry to the shoots collection
(`saveShoot` pushes onto the stored list); when unmarking, reschedule the
reminder.  Haptics and the view reload are UI effects outside the
model. -/
def handleToggleComplete (shoot : UpcomingShoot) (newId now : String)
    (isWeb : Bool) (settings : ReminderSettings) (targetMs : Option Int)
    (nowMs : Int) (freshId : String) (st : AppState) : AppState :=
  let markingComplete := !shoot.completed
  let up := updateUpcomingShoot shoot.id markingComplete now st.upcoming
  if markingComplete then
    { upcoming := up,
      shoots := st.shoots ++ [completedShootEntry shoot newId now],
      notif := cancelReminder ("shoot_" ++ shoot.id) st.notif }
  else
    { upcoming := up,
      shoots := st.shoots,
      notif := (scheduleShootReminder isWeb settings shoot.id targetMs nowMs freshId st.notif).2 }

/-- An upcoming booking with an empty package price. -/
def upcomingNoPrice : UpcomingShoot :=
  { id := "u1", clientName := "Nimali", shootDate := "2024-03-03",
    shootTime := "", shootLocation := "Galle", salonName := "",
    modelName := "", shootType := "Wedding", contactNumber := "071",
    packagePrice := "", advancePaid := "", notes := "",
    completed := false, createdAt := "", updatedAt := "" }

/-- Empty reminder state. -/
def emptyNotif : NotifState :=
  { handles := [], scheduled := [], cancelled := [] }

/-- Application state holding the no-price booking. -/
def stNoPrice : AppState :=
  { upcoming := [upcomingNoPrice], shoots := [], notif := emptyNotif }

/-- C2 counterexample: completing a booking whose package price is empty
materializes a ShootEntry whose price is the literal "0", not the
booking's (empty) price, so no entry with a matching price appears. -/
theorem handleToggleComplete_price_counterexample :
    upcomingNoPrice.completed = false
      ∧ upcomingNoPrice.packagePrice = ""
      ∧ (handleToggleComplete upcomingNoPrice "n1" "t1" false sampleSettings none 0 "f1" stNoPrice).shoots
          = [completedShootEntry upcomingNoPrice "n1" "t1"]
      ∧ (completedShootEntry upcomingNoPrice "n1" "t1").price = "0"
      ∧ ¬ (completedShootEntry upcomingNoPrice "n1" "t1").price = upcomingNoPrice.packagePrice := by
  refine ⟨rfl, rfl, by decide, by decide, by decide⟩

/-- C2 amended: marking a non-completed upcoming shoot completed keeps
the record in the upcoming collection (with `completed := true`, so it
drops out of the from-today view), applies `cancelReminder` to the key
`shoot_<id>`, and appends to the shoots collection a materialized entry
whose client name and shoot date match the booking and whose price is the
booking's package price when non-empty and "0" otherwise. -/
theorem handleToggleComplete_spec (shoot : UpcomingShoot) (newId now : String)
    (isWeb : Bool) (settings : ReminderSettings) (targetMs : Option Int)
    (nowMs : Int) (freshId : String) (st : AppState) (i : Nat)
    (dayVal : String → Int) (today : Int)
    (hc : shoot.completed = false)
    (hidx : st.upcoming.findIdx? (fun s => s.id == shoot.id) = some i)
    (hget : st.upcoming[i]? = some shoot) :
    (handleToggleComplete shoot newId now isWeb settings targetMs nowMs freshId st).upcoming[i]?
        = some { shoot with completed := true, updatedAt := now }
      ∧ (handleToggleComplete shoot newId now isWeb settings targetMs nowMs freshId st).upcoming.length
        = st.upcoming.length
      ∧ { shoot with completed := true, updatedAt := now }
          ∉ getUpcomingShootsFromToday dayVal today
              (handleToggleComplete shoot newId now isWeb settings targetMs nowMs freshId st).upcoming
      ∧ (handleToggleComplete shoot newId now isWeb settings targetMs nowMs freshId st).notif
        = cancelReminder ("shoot_" ++ shoot.id) st.notif
      ∧ (handleToggleComplete shoot newId now isWeb settings targetMs nowMs freshId st).shoots
        = st.shoots ++ [completedShootEntry shoot newId now]
      ∧ (completedShootEntry shoot newId now).clientName = shoot.clientName
      ∧ (completedShootEntry shoot newId now).shootDate = shoot.shootDate
      ∧ (completedShootEntry shoot newId now).price = jsOrStr shoot.packagePrice "0" := by
  have hup : (handleToggleComplete shoot newId now isWeb settings targetMs nowMs freshId st).upcoming
      = st.upcoming.set i { shoot with completed := true, updatedAt := now } := by
    simp [handleToggleComplete, hc, updateUpcomingShoot, hidx, hget]
  have hlen : i < st.upcoming.length := by
    rcases List.getElem?_eq_some.mp hget with ⟨hi, _⟩
    exact hi
  refine ⟨?_, ?_, ?_, ?_, ?_, rfl, rfl, rfl⟩
  · rw [hup]
    simp [List.getElem?_set_self, hlen]
  · rw [hup]
    exact List.length_set st.upcoming _ _
  · intro hmem
    have hp := (List.mem_filter.mp hmem).2
    simp at hp
  · simp [handleToggleComplete, hc]
  · simp [handleToggleComplete, hc]

/-- An upcoming booking with a concrete package price, used by the C2
witness. -/
def upcomingPriced : UpcomingShoot :=
  { id := "u2", clientName := "Ruwan", shootDate := "2024-04-04",
    shootTime := "10:00 AM", shootLocation := "Matara", salonName := "S",
    modelName := "M", shootType := "Bridal", contactNumber := "077",
    packagePrice := "5000", advancePaid := "1000", notes := "n",
    completed := false, createdAt := "", updatedAt := "" }

/-- Application state holding the priced booking and one persisted
reminder handle for it. -/
def stPriced : AppState :=
  { upcoming := [upcomingPriced], shoots := [],
    notif := { handles := [("ns_notif_shoot_u2", "h2")], scheduled := [], cancelled := [] } }

/-- Witness for C2's amended statement on the priced booking. -/
theorem handleToggleComplete_spec_witness :
    (handleToggleComplete upcomingPriced "n2" "t2" false sampleSettings none 0 "f2" stPriced).upcoming[0]?
        = some { upcomingPriced with completed := true, updatedAt := "t2" }
      ∧ (handleToggleComplete upcomingPriced "n2" "t2" false sampleSettings none 0 "f2" stPriced).upcoming.length
        = stPriced.upcoming.length
      ∧ { upcomingPriced with completed := true, updatedAt := "t2" }
          ∉ getUpcomingShootsFromToday dateValZero 0
              (handleToggleComplete upcomingPriced "n2" "t2" false sampleSettings none 0 "f2" stPriced).upcoming
      ∧ (handleToggleComplete upcomingPriced "n2" "t2" false sampleSettings none 0 "f2" stPriced).notif
        = cancelReminder "shoot_u2" stPriced.notif
      ∧ (handleToggleComplete upcomingPriced "n2" "t2" false sampleSettings none 0 "f2" stPriced).shoots
        = stPriced.shoots ++ [completedShootEntry upcomingPriced "n2" "t2"]
      ∧ (completedShootEntry upcomingPriced "n2" "t2").clientName = upcomingPriced.clientName
      ∧ (completedShootEntry upcomingPriced "n2" "t2").shootDate = upcomingPriced.shootDate
      ∧ (completedShootEntry upcomingPriced "n2" "t2").price = jsOrStr upcomingPriced.packagePrice "0" :=
  handleToggleComplete_spec upcomingPriced "n2" "t2" false sampleSettings none 0 "f2"
    stPriced 0 dateValZero 0 (by decide) (by decide) (by decide)

/-- Model of JavaScript `parseInt(s, 10)`: skip leading whitespace, read
an optional sign and then the maximal run of decimal digits; `none`
stands for `NaN` (no digits). -/
def jsParseInt10 (s : String) : Option Int :=
  let cs := s.data.dropWhile isJsWhitespaceB
  let sign : Int := if cs.head? = some '-' then -1 else 1
  let cs2 := if cs.head? = some '-' || cs.head? = some '+' then cs.tail else cs
  let ds := cs2.takeWhile isDigitB
  if ds.isEmpty then none else some (sign * (digitsToNat ds : Int))

/-- Model of JavaScript `padStart(4, '0')`. -/
def padStart4 (s : String) : String :=
  if 4 ≤ s.length then s
  else String.mk (List.replicate (4 - s.length) '0') ++ s

/-- Rendering of a JavaScript number that may be `NaN`. -/
def jsNumToString : Option Int → String
  | none => "NaN"
  | some m => jsIntToString m

/-- Observable outcome of one `getNextInvoiceNumber` call: the returned
invoice number and the counter value persisted back to storage. -/
structure CounterCall where
  returned : String
  stored : String
  deriving DecidableEq

/-- The `next` computation inside `getNextInvoiceNumber` of
`storage.ts`: `counter ? parseInt(counter, 10) + 1 : 1`, where `counter`
is the stored string and `none` stands for an absent key; an empty
stored string is falsy and also restarts at 1, and a `NaN` parse
propagates. -/
def nextCounterValue : Option String → Option Int
  | some c => if c = "" then some 1 else (jsParseInt10 c).map (fun v => v + 1)
  | none => some 1

/-- Embeds `getNextInvoiceNumber` of `storage.ts`: compute the next
counter value, persist `next.toString()` and return it left-padded with
zeros to four digits. -/
def getNextInvoiceNumber (counter : Option String) : CounterCall :=
  { returned := padStart4 (jsNumToString (nextCounterValue counter)),
    stored := jsNumToString (nextCounterValue counter) }

/-- The ten digit characters: digit class, numeric value, and distinction
from whitespace and sign characters. -/
theorem digitChar_facts : ∀ k : Nat, k < 10 →
    isDigitB (Nat.digitChar k) = true ∧ digitVal (Nat.digitChar k) = k
      ∧ isJsWhitespaceB (Nat.digitChar k) = false
      ∧ ¬ Nat.digitChar k = '-' ∧ ¬ Nat.digitChar k = '+' := by
  decide

/-- Appending one digit multiplies the value by ten and adds the digit. -/
theorem digitsToNat_append_digit (xs : List Char) (c : Char) :
    digitsToNat (xs ++ [c]) = digitsToNat xs * 10 + digitVal c := by
  simp [digitsToNat, List.foldl_append]

/-- With enough fuel, the decimal rendering consists of digit characters
only, evaluates back to the rendered number, and is never empty. -/
theorem natToDecimalAux_spec (fuel : Nat) :
    ∀ n, n < fuel →
      (∀ c ∈ natToDecimalAux fuel n, ∃ k, k < 10 ∧ c = Nat.digitChar k)
        ∧ digitsToNat (natToDecimalAux fuel n) = n
        ∧ natToDecimalAux fuel n ≠ [] := by
  induction fuel with
  | zero =>
    intro n h
    omega
  | succ fuel ih =>
    intro n hn
    by_cases h10 : n < 10
    · refine ⟨?_, ?_, ?_⟩
      · intro c hc
        simp [natToDecimalAux, h10] at hc
        exact ⟨n, h10, hc⟩
      · have hv := (digitChar_facts n h10).2.1
        simp [natToDecimalAux, h10, digitsToNat]
        omega
      · simp [natToDecimalAux, h10]
    · have hfuel : n / 10 < fuel := by
        have h2 : n / 10 < n := Nat.div_lt_self (by omega) (by omega)
        omega
      obtain ⟨ihm, ihv, ihne⟩ := ih (n / 10) hfuel
      have hmod : n % 10 < 10 := Nat.mod_lt _ (by omega)
      have heq : natToDecimalAux (fuel + 1) n
          = natToDecimalAux fuel (n / 10) ++ [Nat.digitChar (n % 10)] := by
        simp [natToDecimalAux, h10]
      refine ⟨?_, ?_, ?_⟩
      · intro c hc
        rw [heq] at hc
        rcases List.mem_append.mp hc with hc | hc
        · exact ihm c hc
        · simp at hc
          exact ⟨n % 10, hmod, hc⟩
      · rw [heq, digitsToNat_append_digit, ihv]
        have hv := (digitChar_facts (n % 10) hmod).2.1
        omega
      · rw [heq]
        simp

/-- Taking by a predicate every element satisfies returns the whole
list. -/
theorem takeWhile_of_all {p : Char → Bool} (l : List Char)
    (h : ∀ c ∈ l, p c = true) : l.takeWhile p = l := by
  induction l with
  | nil => rfl
  | cons a t ih =>
    rw [List.takeWhile_cons, if_pos (h a (by simp))]
    rw [ih (fun c hc => h c (List.mem_cons_of_mem a hc))]

/-- `parseInt` on a non-empty pure-digit string recovers its decimal
value. -/
theorem jsParseInt10_all_digits (l : List Char) (hne : l ≠ [])
    (hall : ∀ c ∈ l, ∃ k, k < 10 ∧ c = Nat.digitChar k) :
    jsParseInt10 (String.mk l) = some ((digitsToNat l : Nat) : Int) := by
  obtain ⟨d, t, rfl⟩ := List.exists_cons_of_ne_nil hne
  obtain ⟨k, hk, hd⟩ := hall d (by simp)
  have hfacts := digitChar_facts k hk
  have hdig : ∀ c ∈ d :: t, isDigitB c = true := by
    intro c hc
    obtain ⟨k2, hk2, rfl⟩ := hall c hc
    exact (digitChar_facts k2 hk2).1
  have hwd : isJsWhitespaceB d = false := by
    rw [hd]
    exact hfacts.2.2.1
  have hdm : ¬ d = '-' := by
    rw [hd]
    exact hfacts.2.2.2.1
  have hdp : ¬ d = '+' := by
    rw [hd]
    exact hfacts.2.2.2.2
  simp [jsParseInt10, List.dropWhile_cons, hwd, hdm, hdp, takeWhile_of_all _ hdig]

/-- Leading zero characters do not change the decimal value. -/
theorem digitsToNat_replicate_zero (m : Nat) (ds : List Char) :
    digitsToNat (List.replicate m '0' ++ ds) = digitsToNat ds := by
  induction m with
  | zero => simp
  | succ m ih =>
    have h0 : (0 : Nat) * 10 + digitVal '0' = 0 := by decide
    simp only [digitsToNat, List.replicate_succ, List.cons_append, List.foldl_cons] at ih ⊢
    rw [h0]
    exact ih

/-- `parseInt` also recovers the value of a pure-digit string after zero
padding. -/
theorem jsParseInt10_padStart4 (l : List Char) (hne : l ≠ [])
    (hall : ∀ c ∈ l, ∃ k, k < 10 ∧ c = Nat.digitChar k) :
    jsParseInt10 (padStart4 (String.mk l)) = some ((digitsToNat l : Nat) : Int) := by
  by_cases h4 : 4 ≤ (String.mk l).length
  · rw [padStart4, if_pos h4]
    exact jsParseInt10_all_digits l hne hall
  · rw [padStart4, if_neg h4]
    have hrepr : String.mk (List.replicate (4 - (String.mk l).length) '0') ++ String.mk l
        = String.mk (List.replicate (4 - (String.mk l).length) '0' ++ l) := rfl
    rw [hrepr]
    have hne2 : List.replicate (4 - (String.mk l).length) '0' ++ l ≠ [] := by
      simp [hne]
    have hall2 : ∀ c ∈ List.replicate (4 - (String.mk l).length) '0' ++ l,
        ∃ k, k < 10 ∧ c = Nat.digitChar k := by
      intro c hc
      rcases List.mem_append.mp hc with hc | hc
      · have : c = '0' := (List.eq_of_mem_replicate hc)
        exact ⟨0, by omega, by rw [this]; rfl⟩
      · exact hall c hc
    rw [jsParseInt10_all_digits _ hne2 hall2, digitsToNat_replicate_zero]

/-- The rendering of a non-negative integer is the plain decimal digit
string. -/
theorem jsIntToString_ofNat (n : Nat) :
    jsIntToString ((n : Nat) : Int) = String.mk (natToDecimal n) := by
  rw [jsIntToString, if_neg (by omega : ¬ ((n : Nat) : Int) < 0)]
  rfl

/-- The decimal rendering of a natural number is never the empty
string. -/
theorem jsIntToString_ofNat_ne_empty (n : Nat) :
    jsIntToString ((n : Nat) : Int) ≠ "" := by
  rw [jsIntToString_ofNat]
  intro h
  have hdata := congrArg String.data h
  exact (natToDecimalAux_spec (n + 1) n (by omega)).2.2 hdata

/-- `parseInt` inverts the rendering of a natural number. -/
theorem jsParseInt10_jsIntToString (n : Nat) :
    jsParseInt10 (jsIntToString ((n : Nat) : Int)) = some ((n : Nat) : Int) := by
  rw [jsIntToString_ofNat]
  obtain ⟨hall, hv, hne⟩ := natToDecimalAux_spec (n + 1) n (by omega)
  unfold natToDecimal
  rw [jsParseInt10_all_digits _ hne hall, hv]

/-- `parseInt` also inverts the rendering after four-digit zero
padding. -/
theorem jsParseInt10_padStart4_jsIntToString (n : Nat) :
    jsParseInt10 (padStart4 (jsIntToString ((n : Nat) : Int))) = some ((n : Nat) : Int) := by
  rw [jsIntToString_ofNat]
  obtain ⟨hall, hv, hne⟩ := natToDecimalAux_spec (n + 1) n (by omega)
  unfold natToDecimal
  rw [jsParseInt10_padStart4 _ hne hall, hv]

/-- One `getNextInvoiceNumber` call on a non-empty stored counter that
parses as m: it persists the rendering of m+1 and returns its padded
form. -/
theorem getNextInvoiceNumber_step (c : String) (m : Nat)
    (hcne : ¬ c = "") (hc : jsParseInt10 c = some ((m : Nat) : Int)) :
    getNextInvoiceNumber (some c)
      = { returned := padStart4 (jsIntToString (((m + 1 : Nat) : Int))),
          stored := jsIntToString (((m + 1 : Nat) : Int)) } := by
  have hnext : nextCounterValue (some c) = some (((m + 1 : Nat) : Int)) := by
    simp [nextCounterValue, hcne, hc]
  simp only [getNextInvoiceNumber, hnext]
  rfl

/-- C3: starting from a stored counter that parses as the natural number
n, two sequential `getNextInvoiceNumber` calls persist the incremented
counters n+1 and then n+2 and return their zero-padded renderings, which
parse back as the strictly increasing values n+1 < n+2; when the counter
key does not exist the first call initializes the counter to 1 and
returns "0001" and the next call persists 2 and returns "0002". -/
theorem getNextInvoiceNumber_spec (c : String) (n : Nat)
    (hc : jsParseInt10 c = some ((n : Nat) : Int)) :
    (getNextInvoiceNumber (some c)).stored = jsIntToString (((n + 1 : Nat) : Int))
      ∧ (getNextInvoiceNumber (some c)).returned
        = padStart4 (jsIntToString (((n + 1 : Nat) : Int)))
      ∧ (getNextInvoiceNumber (some (getNextInvoiceNumber (some c)).stored)).stored
        = jsIntToString (((n + 2 : Nat) : Int))
      ∧ (getNextInvoiceNumber (some (getNextInvoiceNumber (some c)).stored)).returned
        = padStart4 (jsIntToString (((n + 2 : Nat) : Int)))
      ∧ jsParseInt10 (getNextInvoiceNumber (some c)).returned = some (((n + 1 : Nat) : Int))
      ∧ jsParseInt10 (getNextInvoiceNumber (some (getNextInvoiceNumber (some c)).stored)).returned
        = some (((n + 2 : Nat) : Int))
      ∧ (((n + 1 : Nat) : Int)) < (((n + 2 : Nat) : Int))
      ∧ getNextInvoiceNumber none = { returned := "0001", stored := "1" }
      ∧ getNextInvoiceNumber (some (getNextInvoiceNumber none).stored)
        = { returned := "0002", stored := "2" } := by
  have hcne : ¬ c = "" := by
    intro h
    rw [h] at hc
    exact Option.noConfusion hc
  have h1 := getNextInvoiceNumber_step c n hcne hc
  have hstored1 : (getNextInvoiceNumber (some c)).stored
      = jsIntToString (((n + 1 : Nat) : Int)) := by
    rw [h1]
  have hretd1 : (getNextInvoiceNumber (some c)).returned
      = padStart4 (jsIntToString (((n + 1 : Nat) : Int))) := by
    rw [h1]
  have h2 : getNextInvoiceNumber (some (getNextInvoiceNumber (some c)).stored)
      = { returned := padStart4 (jsIntToString (((n + 2 : Nat) : Int))),
          stored := jsIntToString (((n + 2 : Nat) : Int)) } := by
    rw [hstored1]
    exact getNextInvoiceNumber_step _ (n + 1)
      (jsIntToString_ofNat_ne_empty (n + 1)) (jsParseInt10_jsIntToString (n + 1))
  refine ⟨hstored1, hretd1, by rw [h2], by rw [h2], ?_, ?_, by omega, by decide, by decide⟩
  · rw [hretd1]
    exact jsParseInt10_padStart4_jsIntToString (n + 1)
  · rw [h2]
    exact jsParseInt10_padStart4_jsIntToString (n + 2)

/-- Witness for C3 at the concrete stored counter "41". -/
theorem getNextInvoiceNumber_spec_witness :
    (getNextInvoiceNumber (some "41")).stored = jsIntToString (((41 + 1 : Nat) : Int))
      ∧ (getNextInvoiceNumber (some "41")).returned
        = padStart4 (jsIntToString (((41 + 1 : Nat) : Int)))
      ∧ (getNextInvoiceNumber (some (getNextInvoiceNumber (some "41")).stored)).stored
        = jsIntToString (((41 + 2 : Nat) : Int))
      ∧ (getNextInvoiceNumber (some (getNextInvoiceNumber (some "41")).stored)).returned
        = padStart4 (jsIntToString (((41 + 2 : Nat) : Int)))
      ∧ jsParseInt10 (getNextInvoiceNumber (some "41")).returned = some (((41 + 1 : Nat) : Int))
      ∧ jsParseInt10 (getNextInvoiceNumber (some (getNextInvoiceNumber (some "41")).stored)).returned
        = some (((41 + 2 : Nat) : Int))
      ∧ (((41 + 1 : Nat) : Int)) < (((41 + 2 : Nat) : Int))
      ∧ getNextInvoiceNumber none = { returned := "0001", stored := "1" }
      ∧ getNextInvoiceNumber (some (getNextInvoiceNumber none).stored)
        = { returned := "0002", stored := "2" } :=
  getNextInvoiceNumber_spec "41" 41 (by decide)
